import Mathlib

/-!
Verification of the process-supervision / progress-parsing core of ytdl-ui
(`src/ytdl_ui/ytdlp_process.py`), shallowly embedded in Lean 4.

Strings are modelled as `List Char`; Python `float` values arising from
decimal literals are modelled as exact rationals (`ℚ`); Python `int`
values as `Int`; a Python value that may be `None` as `Option`;
Python exceptions as the `error` side of `Except`.
-/

namespace YtdlUi

/-! ## Python string helpers -/

/-- Python `str.isspace`-style character class used by the regex token `\s`
(ASCII whitespace; the repository's inputs contain only plain blanks). -/
def pyIsSpace (c : Char) : Bool :=
  c = ' ' || c = '\t' || c = '\n' || c = '\r' || c = '\x0b' || c = '\x0c'

/-- The regex character class `\d` (ASCII digits). -/
def pyIsDigit (c : Char) : Bool :=
  '0' ≤ c && c ≤ '9'

/-- Numeric value of a digit string (big-endian), as Python `int` of it. -/
def digitsVal (l : List Char) : Nat :=
  l.foldl (fun a c => 10 * a + (c.toNat - '0'.toNat)) 0

/-- Python `str.strip()`: drop whitespace from both ends. -/
def pyStrip (l : List Char) : List Char :=
  ((l.dropWhile pyIsSpace).reverse.dropWhile pyIsSpace).reverse

/-- `l.take (l.length - n)`, i.e. the Python slice `s[:-n]` for `n ≤ len`. -/
def pyDropRight (n : Nat) (l : List Char) : List Char :=
  l.take (l.length - n)

/-- Auxiliary worker for `pySplitCh`. -/
def pySplitChAux (c : Char) : List Char → List Char → List (List Char)
  | [], acc => [acc.reverse]
  | x :: xs, acc =>
      if x = c then acc.reverse :: pySplitChAux c xs []
      else pySplitChAux c xs (x :: acc)

/-- Python `str.split(c)` for a one-character separator: `"a:b".split(':')`
gives `["a", "b"]`, and `"".split(':')` gives `[""]`. -/
def pySplitCh (c : Char) (l : List Char) : List (List Char) :=
  pySplitChAux c l []

/-- Python `needle in haystack` substring test. -/
def pyContains (needle l : List Char) : Bool :=
  l.tails.any (fun t => needle.isPrefixOf t)

/-- Python `int(s)` as used on the colon-separated fields of an ETA match:
an all-digit string parses to its value, anything else (such as the empty
string) raises `ValueError`. -/
def pyIntStr (l : List Char) : Except Unit Int :=
  if !l.isEmpty && l.all pyIsDigit then .ok (digitsVal l) else .error ()

/-- Python `float(s)` on the decimal shapes (`\d+` or `\d+.\d+`) that the
progress pattern can produce, as an exact rational.  (Every numeric value in
the specification's scenarios is exactly representable in binary floating
point, so the exact-rational model agrees with CPython's `float` on them.) -/
def pyFloatDec (l : List Char) : Option ℚ :=
  match pySplitCh '.' l with
  | [a] =>
      if !a.isEmpty && a.all pyIsDigit then some (digitsVal a) else none
  | [a, b] =>
      if !a.isEmpty && !b.isEmpty && a.all pyIsDigit && b.all pyIsDigit then
        some ((digitsVal a : ℚ) + (digitsVal b : ℚ) / (10 : ℚ) ^ b.length)
      else none
  | _ => none

/-- Python `int(x)` on a (model) rational: truncation toward zero. -/
def pyTrunc (q : ℚ) : Int :=
  Int.tdiv q.num q.den

/-- Lift an `Option` to `Except`, `none` standing for a raised exception. -/
def exceptOfOpt {α : Type} : Option α → Except Unit α
  | some a => .ok a
  | none => .error ()

instance {ε α : Type} [DecidableEq ε] [DecidableEq α] :
    DecidableEq (Except ε α) := fun a b =>
  match a, b with
  | .error e, .error f =>
      if h : e = f then .isTrue (by rw [h])
      else .isFalse (fun hc => by cases hc; exact h rfl)
  | .error _, .ok _ => .isFalse (fun hc => by cases hc)
  | .ok _, .error _ => .isFalse (fun hc => by cases hc)
  | .ok x, .ok y =>
      if h : x = y then .isTrue (by rw [h])
      else .isFalse (fun hc => by cases hc; exact h rfl)

/-! ## A pattern engine with Python `re` backtracking semantics

The source matches progress lines with a single `re.search` call.  We embed
exactly that pattern as an abstract syntax tree and give it the standard
backtracking ("list of successes", highest-priority first) semantics, so the
first element of the result list is the match Python's engine reports. -/

/-- Captured groups: group number paired with the captured characters. -/
def Caps : Type := List (Nat × List Char)

instance : DecidableEq Caps := by
  unfold Caps; infer_instance

/-- Pattern syntax: literal text, a one-or-more character class (`\d+`,
`\s+`, `[0-9:]+`), a greedy option (`~?`), ordered alternation, sequencing
and numbered capture groups. -/
inductive RE where
  | eps : RE
  | lit : List Char → RE
  | plus : (Char → Bool) → RE
  | opt : RE → RE
  | alt : RE → RE → RE
  | seq : RE → RE → RE
  | grp : Nat → RE → RE

/-- All ways a greedy `p+` can consume a nonempty prefix, longest first. -/
def plusSplits (p : Char → Bool) (input : List Char) (cp : Caps) :
    List (List Char × Caps) :=
  let m := (input.takeWhile p).length
  (List.range m).map (fun i => (input.drop (m - i), cp))

/-- All prefix matches of a pattern against `input`, in the priority order of
a backtracking regex engine; each result is the remaining suffix together
with the captures recorded so far. -/
def reRun : RE → List Char → Caps → List (List Char × Caps)
  | .eps, input, cp => [(input, cp)]
  | .lit cs, input, cp =>
      if cs.isPrefixOf input then [(input.drop cs.length, cp)] else []
  | .plus p, input, cp => plusSplits p input cp
  | .opt r, input, cp => reRun r input cp ++ [(input, cp)]
  | .alt a b, input, cp => reRun a input cp ++ reRun b input cp
  | .seq a b, input, cp =>
      (reRun a input cp).flatMap (fun rc => reRun b rc.1 rc.2)
  | .grp n r, input, cp =>
      (reRun r input cp).map
        (fun rc => (rc.1, (n, input.take (input.length - rc.1.length)) :: rc.2))

/-- The highest-priority match of the pattern at the start of `input`. -/
def reTryAt (r : RE) (input : List Char) : Option Caps :=
  match reRun r input [] with
  | [] => none
  | rc :: _ => some rc.2

/-- Python `re.search`: the leftmost position with a match wins, and within
it the backtracking engine's first success. -/
def reSearch (r : RE) : List Char → Option Caps
  | [] => reTryAt r []
  | c :: rest =>
      match reTryAt r (c :: rest) with
      | some cp => some cp
      | none => reSearch r rest

/-- Look up a captured group. -/
def capGet (cp : Caps) (n : Nat) : Option (List Char) :=
  (cp.find? (fun g => g.1 = n)).map (fun g => g.2)

/-- Right-nested sequencing of a list of patterns. -/
def seqs (rs : List RE) : RE :=
  rs.foldr RE.seq .eps

/-! ## The progress-line pattern

The source pattern (ytdlp_process.py line 176) is

  `\[download\]\s+(\d+\.\d+)%\s+of\s+~?\s+(\d+\.\d+(?:GiB|MiB|GiB|B))\s+at\s+(\d+\.\d+(?:GiB|MiB|KiB|B))\/s\s+ETA\s+([0-9:]+)`

Note two peculiarities transcribed faithfully: between `of` and the size
stand two mandatory `\s+` with only an optional `~` between them, and the
size unit alternation repeats `GiB` and has no `KiB`. -/

/-- `\d+\.\d+` -/
def decimalRE : RE :=
  .seq (.plus pyIsDigit) (.seq (.lit ['.']) (.plus pyIsDigit))

/-- `(?:GiB|MiB|GiB|B)` — the size-unit alternation of the source pattern. -/
def sizeUnitsRE : RE :=
  .alt (.lit "GiB".toList)
    (.alt (.lit "MiB".toList) (.alt (.lit "GiB".toList) (.lit "B".toList)))

/-- `(?:GiB|MiB|KiB|B)` — the rate-unit alternation of the source pattern. -/
def rateUnitsRE : RE :=
  .alt (.lit "GiB".toList)
    (.alt (.lit "MiB".toList) (.alt (.lit "KiB".toList) (.lit "B".toList)))

/-- `[0-9:]+` -/
def etaRE : RE :=
  .plus (fun c => pyIsDigit c || c = ':')

/-- The full progress-line pattern of `YtDlpProcess.parse_output`. -/
def progressRE : RE :=
  seqs
    [ .lit "[download]".toList, .plus pyIsSpace,
      .grp 1 decimalRE, .lit ['%'], .plus pyIsSpace,
      .lit "of".toList, .plus pyIsSpace, .opt (.lit ['~']), .plus pyIsSpace,
      .grp 2 (.seq decimalRE sizeUnitsRE), .plus pyIsSpace,
      .lit "at".toList, .plus pyIsSpace,
      .grp 3 (.seq decimalRE rateUnitsRE), .lit "/s".toList, .plus pyIsSpace,
      .lit "ETA".toList, .plus pyIsSpace, .grp 4 etaRE ]

/-! ## The static parsing helpers of `YtDlpProcess` -/

/-- `YtDlpProcess.parse_byte_size` (ytdlp_process.py lines 68–78): an
`endswith` chain over `GiB`/`MiB`/`KiB`/`B` converting
`int(float(prefix) * 1024.0**k)`, falling through to `0`. -/
def parse_byte_size (s : List Char) : Except Unit Int :=
  if "GiB".toList.isSuffixOf s then do
    let q ← exceptOfOpt (pyFloatDec (pyDropRight 3 s))
    .ok (pyTrunc (q * 1024 ^ 3))
  else if "MiB".toList.isSuffixOf s then do
    let q ← exceptOfOpt (pyFloatDec (pyDropRight 3 s))
    .ok (pyTrunc (q * 1024 ^ 2))
  else if "KiB".toList.isSuffixOf s then do
    let q ← exceptOfOpt (pyFloatDec (pyDropRight 3 s))
    .ok (pyTrunc (q * 1024 ^ 1))
  else if "B".toList.isSuffixOf s then do
    let q ← exceptOfOpt (pyFloatDec (pyDropRight 1 s))
    .ok (pyTrunc (q * 1024 ^ 0))
  else .ok 0

/-- A Python `int | None` value. -/
inductive PyIntOrNone where
  | vNone : PyIntOrNone
  | vInt : Int → PyIntOrNone
deriving DecidableEq

/-- `YtDlpProcess.parse_seconds` (ytdlp_process.py lines 80–91).  A string
containing `--` gives Python `None`; otherwise the string is split on `:`
and, faithfully to the source, the three-field branch computes
`int(parts[0]) * 60**2 + int(parts[1]) * 60**1 + int(parts[0]) * 60**0`
(the first field is reused in the units place and `parts[2]` is unused);
any other field count gives `0`. -/
def parse_seconds (s : List Char) : Except Unit PyIntOrNone :=
  if pyContains "--".toList s then .ok .vNone
  else
    match pySplitCh ':' s with
    | [a, b] => do
        let x ← pyIntStr a
        let y ← pyIntStr b
        .ok (.vInt (x * 60 ^ 1 + y * 60 ^ 0))
    | [a, b, _c] => do
        let x ← pyIntStr a
        let y ← pyIntStr b
        .ok (.vInt (x * 60 ^ 2 + y * 60 ^ 1 + x * 60 ^ 0))
    | _ => .ok (.vInt 0)

/-! ## The progress record -/

/-- The `YtDlpInfo` dataclass (ytdlp_process.py lines 19–33).  `progress`
is a Python float modelled as an exact rational; `eta_seconds` can hold
Python `None` (from `parse_seconds` on an unknown ETA). -/
structure YtDlpInfo where
  url : List Char
  progress : ℚ
  rate_bytes_per_sec : Int
  size_bytes : Int
  eta_seconds : PyIntOrNone
  completed : Bool
deriving DecidableEq

/-- `YtDlpInfo.new`: `YtDlpInfo(url, 0.0, 0, 0, 0, False)`. -/
def YtDlpInfo.new (url : List Char) : YtDlpInfo :=
  { url := url, progress := 0, rate_bytes_per_sec := 0, size_bytes := 0,
    eta_seconds := .vInt 0, completed := false }

/-- `YtDlpProcess.parse_output` (ytdlp_process.py lines 175–185), acting on
the held record: on a pattern match the record is rebuilt wholesale from
the four captured groups with `completed=False`; on no match it is left
untouched.  An exception raised while converting a group (Python
`ValueError`) propagates. -/
def parse_output (url : List Char) (info : YtDlpInfo) (output : List Char) :
    Except Unit YtDlpInfo :=
  match reSearch progressRE output with
  | none => .ok info
  | some cp => do
      let g1 ← exceptOfOpt (capGet cp 1)
      let g2 ← exceptOfOpt (capGet cp 2)
      let g3 ← exceptOfOpt (capGet cp 3)
      let g4 ← exceptOfOpt (capGet cp 4)
      let p ← exceptOfOpt (pyFloatDec g1)
      let sz ← parse_byte_size g2
      let rt ← parse_byte_size g3
      let eta ← parse_seconds g4
      .ok { url := url, progress := p, size_bytes := sz,
            rate_bytes_per_sec := rt, eta_seconds := eta, completed := false }

/-! ## The supervisor (`YtDlpProcess`)

The spawned external process is modelled by the exit status it will report:
`returncode = none` while it has not terminated (`Popen.poll()` gives
`None`), `some r` once it has; `killed` records a delivered kill signal.
Listeners are identified by number; the callbacks the supervisor performs
on them are recorded as an event list. -/

/-- A `subprocess.Popen` handle, reduced to what the supervisor reads. -/
structure ProcHandle where
  returncode : Option Int
  killed : Bool
deriving DecidableEq

/-- A callback performed on a registered listener: `status_update(info)` or
`completed(rc)` (the latter's argument is `self.rc`, which can be `None`). -/
inductive Event where
  | statusUpdate : Nat → YtDlpInfo → Event
  | completedEv : Nat → Option Int → Event
deriving DecidableEq

/-- The instance state of `YtDlpProcess` (ytdlp_process.py lines 53–66).
`download_thread` holds the Python value stored in `self.download_thread`;
the only value the source ever stores there is `Thread(...).start()`'s
result, and `Thread.start` returns `None`. -/
structure SupState where
  url : List Char
  process : Option ProcHandle
  cancelled : Bool
  download_thread : Option Unit
  output_folder : Option (List Char)
  rc : Option Int
  ytdlp_info : YtDlpInfo
  formats : List (List Char)
  listeners : List Nat
deriving DecidableEq

/-- `YtDlpProcess.__init__(url, output_folder)`. -/
def initState (url : List Char) (output_folder : Option (List Char)) :
    SupState :=
  { url := url, process := none, cancelled := false, download_thread := none,
    output_folder := output_folder, rc := none,
    ytdlp_info := YtDlpInfo.new url, formats := [], listeners := [] }

/-- `YtDlpProcess.add_listener`. -/
def add_listener (s : SupState) (l : Nat) : SupState :=
  { s with listeners := s.listeners ++ [l] }

/-- `YtDlpProcess.get_info`: a value copy (clone) of the held record. -/
def get_info (s : SupState) : YtDlpInfo :=
  s.ytdlp_info

/-- `YtDlpProcess.is_complete`: `self.rc is not None`. -/
def is_complete (s : SupState) : Bool :=
  s.rc.isSome

/-- `YtDlpProcess.notify_listeners` (ytdlp_process.py lines 168–173): each
listener receives `status_update` with the held record, followed by
`completed(self.rc)` when the record is marked completed. -/
def notify_listeners (s : SupState) : List Event :=
  s.listeners.flatMap (fun l =>
    Event.statusUpdate l s.ytdlp_info ::
      (if s.ytdlp_info.completed then [Event.completedEv l s.rc] else []))

/-- `YtDlpProcess.download` (ytdlp_process.py lines 160–166).  When
`self.download_thread is None` it clears the cancellation flag and the
captured status, spawns the pump thread (the returned flag), and stores
`Thread(...).start()`'s result — which is Python `None` — back into
`self.download_thread`; otherwise it raises `Already downloading: <url>`. -/
def download (s : SupState) : Except (List Char) (SupState × Bool) :=
  match s.download_thread with
  | none =>
      .ok ({ s with cancelled := false, rc := none, download_thread := none },
           true)
  | some _ => .error ("Already downloading: ".toList ++ s.url)

/-- The post-loop finalization block of `_download_func` (ytdlp_process.py
lines 126–131): progress is forced to `100.0` exactly when the captured
status is `0` (Python `None == 0` is false), then the record is marked
completed with rate and ETA zeroed. -/
def finalizeInfo (rc : Option Int) (info : YtDlpInfo) : YtDlpInfo :=
  let info1 := if rc = some 0 then { info with progress := 100 } else info
  { info1 with
    completed := true
    rate_bytes_per_sec := 0
    eta_seconds := .vInt 0 }

/-- Outcome of running the pump-loop body on its thread: it either returns
or an exception escapes it; both carry the shared state and the listener
callbacks performed so far. -/
inductive PumpOut where
  | ok : SupState → List Event → PumpOut
  | exn : SupState → List Event → PumpOut
deriving DecidableEq

/-- The read/parse/notify loop of `_download_func` (ytdlp_process.py lines
113–120), over the process's stdout lines.  Each iteration re-checks the
cancellation flag, strips the line, feeds it to `parse_output`, and — since
`self.ytdlp_info` is never `None` — always calls `notify_listeners`,
whether or not the line matched.  A parse exception escapes the loop. -/
def pumpLoop (url : List Char) :
    List (List Char) → SupState → List Event → PumpOut
  | [], s, evs => .ok s evs
  | line :: rest, s, evs =>
      if s.cancelled then .ok s evs
      else
        match parse_output url s.ytdlp_info (pyStrip line) with
        | .error _ => .exn s evs
        | .ok info =>
            let s1 := { s with ytdlp_info := info }
            pumpLoop url rest s1 (evs ++ notify_listeners s1)

/-- `YtDlpProcess._download_func` (ytdlp_process.py lines 93–134) for one
run of the pump thread.  `spawn` is the outcome of the `Popen` call: if it
raises, the exception escapes the thread body at once — nothing after it
runs, so the shared state keeps its prior values and no listener is
notified.  On a successful spawn the loop pumps the given stdout lines,
the exit status is captured with `poll()`, the record is finalized, the
listeners are notified a final time and the thread slot is cleared. -/
def runDownloadFunc (spawn : Except Unit ProcHandle)
    (lines : List (List Char)) (s : SupState) : PumpOut :=
  match spawn with
  | .error _ => .exn s []
  | .ok proc =>
      match pumpLoop s.url lines { s with process := some proc } [] with
      | .exn s1 evs => .exn s1 evs
      | .ok s1 evs =>
          let s2 := { s1 with
            rc := proc.returncode
            ytdlp_info := finalizeInfo proc.returncode s1.ytdlp_info }
          .ok { s2 with download_thread := none } (evs ++ notify_listeners s2)

/-- `Popen.kill` on the handle: CPython's `send_signal` polls first and
does nothing when the process has already terminated, and raises in
neither case. -/
def procKill (p : ProcHandle) : ProcHandle :=
  if p.returncode.isSome then p else { p with killed := true }

/-- `YtDlpProcess.kill` (ytdlp_process.py lines 190–194): set the
cancellation flag and, if a process was spawned, deliver a kill signal.
The body performs no listener callback, so the returned event list is
empty; no statement in it can raise. -/
def kill (s : SupState) : SupState × List Event :=
  let s1 := { s with cancelled := true }
  (match s1.process with
   | none => s1
   | some p => { s1 with process := some (procKill p) }, [])

/-! ## The notification dispatcher (`YtDlpQThread`)

Two threads share `self.info`, `self.rc`, `self.cancelled` and a condition
variable: the producer (the pump thread, through the listener callbacks
`status_update`/`completed`, ytdlp_process.py lines 221–232) and the
consumer loop `run` (lines 234–243).  We model the interleavings as a
labelled transition system.  The condition variable has CPython semantics:
`wait()` releases the lock and blocks until a `notify()` that is issued
while it waits; a `notify()` with no waiter is lost. -/

/-- Program counter of the consumer loop `YtDlpQThread.run`:
`loopCheck` is the `while not self.cancelled` test, `afterCheck` is about
to acquire the condition's lock, `preWait` holds the lock and is about to
call `wait()`, `inWait` is blocked in `wait()`, `awake` has reacquired the
lock after a notification and is about to drain and emit. -/
inductive CLoc where
  | loopCheck : CLoc
  | afterCheck : CLoc
  | preWait : CLoc
  | inWait : CLoc
  | awake : CLoc
  | exited : CLoc
deriving DecidableEq

/-- A producer call arriving from the pump thread. -/
inductive POp where
  | statusOp : YtDlpInfo → POp
  | completedOp : Option Int → POp
deriving DecidableEq

/-- A Qt signal emission performed by the consumer loop. -/
inductive QEvent where
  | emitCompleted : Int → QEvent
  | emitStatus : YtDlpInfo → QEvent
deriving DecidableEq

/-- Shared state of the dispatcher: the single-slot mailbox (`qinfo`,
`qrc`, both Python-`None`-able), the shutdown flag, the condition
variable's lock and pending-wakeup token, the consumer's program counter,
the producer calls not yet performed, and the emissions so far. -/
structure QState where
  qinfo : Option YtDlpInfo
  qrc : Option Int
  cancelled : Bool
  lockFree : Bool
  notified : Bool
  cloc : CLoc
  pending : List POp
  emitted : List QEvent
deriving DecidableEq

/-- `YtDlpQThread.__init__` shared-state fields, with the producer's
forthcoming calls given as `pending`. -/
def qInit (pending : List POp) : QState :=
  { qinfo := none, qrc := none, cancelled := false, lockFree := true,
    notified := false, cloc := .loopCheck, pending := pending, emitted := [] }

/-- A scheduling choice: run the producer's next call (it holds the
condition's lock for its whole body, so it is atomic against the consumer's
critical sections), or advance the consumer loop by one step. -/
inductive QAct where
  | prod : QAct
  | cons : QAct
deriving DecidableEq

/-- One labelled step of the dispatcher; `none` when the chosen side cannot
move (blocked on the lock or on `wait()`, out of calls, or exited).

Producer: `status_update` stores a clone into `self.info` and notifies;
`completed` stores into `self.rc`, sets `self.cancelled`, and notifies.
Neither touches the other's slot.  The notification is lost unless the
consumer is blocked in `wait()`.

Consumer (`run`): test `self.cancelled`; acquire the lock; `wait()`;
on wakeup emit `completed_signal` if `self.rc != None`, then
`status_update_signal` if `self.info != None`, clear both slots, release
the lock, and loop. -/
def qstep (s : QState) : QAct → Option QState
  | .prod =>
      match s.pending with
      | [] => none
      | op :: rest =>
          if s.lockFree then
            some (match op with
              | .statusOp i =>
                  { s with
                    qinfo := some i
                    pending := rest
                    notified := s.notified || decide (s.cloc = CLoc.inWait) }
              | .completedOp r =>
                  { s with
                    qrc := r
                    cancelled := true
                    pending := rest
                    notified := s.notified || decide (s.cloc = CLoc.inWait) })
          else none
  | .cons =>
      match s.cloc with
      | .loopCheck =>
          some (if s.cancelled then { s with cloc := .exited }
                else { s with cloc := .afterCheck })
      | .afterCheck =>
          if s.lockFree then some { s with lockFree := false, cloc := .preWait }
          else none
      | .preWait => some { s with lockFree := true, cloc := .inWait }
      | .inWait =>
          if s.notified && s.lockFree then
            some { s with notified := false, lockFree := false, cloc := .awake }
          else none
      | .awake =>
          some { s with
            emitted := s.emitted ++
              (match s.qrc with
               | some v => [QEvent.emitCompleted v]
               | none => []) ++
              (match s.qinfo with
               | some i => [QEvent.emitStatus i]
               | none => [])
            qrc := none
            qinfo := none
            lockFree := true
            cloc := .loopCheck }
      | .exited => none

/-- Run a schedule; `none` when some chosen step is disabled. -/
def qRun : List QAct → QState → Option QState
  | [], s => some s
  | a :: rest, s =>
      match qstep s a with
      | none => none
      | some s1 => qRun rest s1

/-- Count of completion emissions among the dispatched events. -/
def completedCount (evs : List QEvent) : Nat :=
  evs.countP (fun e => match e with | QEvent.emitCompleted _ => true | _ => false)

/-! ## Concrete inputs used by the scenarios -/

/-- `parse_output` as a method: the held record is the supervisor's. -/
def sup_parse_output (s : SupState) (output : List Char) :
    Except Unit SupState :=
  (parse_output s.url s.ytdlp_info output).map
    (fun i => { s with ytdlp_info := i })

/-- The exact rational value of the decimal string `d1 ++ "." ++ d2`. -/
def decQ (d1 d2 : List Char) : ℚ :=
  (digitsVal d1 : ℚ) + (digitsVal d2 : ℚ) / (10 : ℚ) ^ d2.length

/-- A job URL. -/
def theUrl : List Char := "https://example.test/v".toList

/-- The specification's synthetic progress line, spaced exactly as the
specification gives it. -/
def c1SpecLine : List Char :=
  "[download] 45.50% of 10.00MiB at 512.00KiB/s ETA 00:20".toList

/-- The same line with two blanks between `of` and the size. -/
def c1TwoSpaceLine : List Char :=
  "[download] 45.50% of  10.00MiB at 512.00KiB/s ETA 00:20".toList

/-- A yt-dlp log line that carries no progress information. -/
def c6LogLine : List Char :=
  "[youtube] abc: Downloading webpage".toList

/-- A freshly constructed supervisor with one registered listener. -/
def oneListener : SupState :=
  add_listener (initState theUrl none) 0

/-- A progress record used as a dispatcher payload. -/
def c7Info : YtDlpInfo := YtDlpInfo.new theUrl

/-! ## The claims -/

/-- C1.  The claim asserts that feeding the synthetic line
`"[download] 45.50% of 10.00MiB at 512.00KiB/s ETA 00:20"` through
`parse_output` to a freshly constructed supervisor yields a snapshot with
progress 45.50, size 10485760, rate 524288, ETA 20, not completed.  The
code refutes it: the pattern's `of\s+~?\s+` demands two whitespace
characters (or a whitespace-flanked `~`) between `of` and the size, so the
single-spaced line does not match and the snapshot keeps its initial
values (progress `0.0`, not `45.50`).  The last conjunct shows the slip:
with two blanks after `of`, the very values the claim lists are produced. -/
theorem claim1_spec_line_not_parsed :
    (do
      let s1 ← sup_parse_output (initState theUrl none) c1SpecLine
      pure (get_info s1)) = .ok (YtDlpInfo.new theUrl) ∧
    (YtDlpInfo.new theUrl).progress = 0 ∧
    ((0 : ℚ) ≠ 45.5) ∧
    (do
      let s1 ← sup_parse_output (initState theUrl none) c1TwoSpaceLine
      pure (get_info s1)) =
      .ok { url := theUrl, progress := 45.5, rate_bytes_per_sec := 524288,
            size_bytes := 10485760, eta_seconds := .vInt 20,
            completed := false } := by
  refine ⟨by with_unfolding_all rfl, rfl, by norm_num,
    by with_unfolding_all rfl⟩

/-- C2.  The claim asserts `parse_seconds` maps `MM:SS` to `60*MM + SS`
(so `"01:30"` to 90, which holds), maps `HH:MM:SS` to
`3600*HH + 60*MM + SS` (so `"01:02:03"` to 3723), and maps any string
containing `--` to the distinct unknown sentinel (which holds).  The code
refutes the middle part: its three-field branch reuses `parts[0]` in the
units place (`parts[2]` is never read), so `"01:02:03"` evaluates to
`3600*1 + 60*2 + 1 = 3721`, not 3723. -/
theorem claim2_parse_seconds_hours_slip :
    parse_seconds "01:30".toList = .ok (.vInt 90) ∧
    parse_seconds "01:02:03".toList = .ok (.vInt 3721) ∧
    ((PyIntOrNone.vInt 3721) ≠ .vInt 3723) ∧
    parse_seconds "--:--".toList = .ok .vNone ∧
    ((PyIntOrNone.vNone) ≠ .vInt 0) := by
  refine ⟨by with_unfolding_all rfl, by with_unfolding_all rfl, by decide,
    by with_unfolding_all rfl, by decide⟩

/-- C3.  The claim asserts a second `start()` on a running supervisor
fails synchronously with an "already in progress" error and performs no
action.  The code refutes it: `download` stores `Thread(...).start()` —
which is Python `None` — into `self.download_thread`, so the guard is
always taken.  Below, the first `download` succeeds and leaves
`download_thread = None`; after `kill` sets the cancellation flag, a
second `download` succeeds again (spawning a second pump thread, the
`true` flags), resets the cancellation flag to `False` and clears the
captured status, instead of raising. -/
theorem claim3_second_download_not_rejected :
    (do
      let r1 ← download (initState theUrl none)
      let s2 := (kill r1.1).1
      let r2 ← download s2
      pure (r1.2, r1.1.download_thread, s2.cancelled,
            r2.2, r2.1.cancelled, r2.1.rc))
    = .ok (true, none, true, true, false, none) := by
  with_unfolding_all rfl

/-- C8.  `kill` is idempotent and race-free against natural exit: a second
call produces the same state; the captured exit status and the held record
are untouched; and no listener callback is performed by either call, so no
second `completed` callback can originate from `kill`.  The universally
quantified state covers a not-yet-spawned process (`process = none`), a
still-running one, and one that already exited naturally (in which case
`Popen.kill`'s `send_signal` polls first and does nothing).  No path in
the body raises. -/
theorem claim8_kill_idempotent (s : SupState) :
    (kill (kill s).1).1 = (kill s).1 ∧
    (kill s).1.rc = s.rc ∧
    (kill s).1.ytdlp_info = s.ytdlp_info ∧
    (kill s).1.listeners = s.listeners ∧
    (kill s).2 = [] ∧ (kill (kill s).1).2 = [] := by
  cases hp : s.process with
  | none => simp [kill, hp]
  | some p =>
      cases hr : p.returncode with
      | none => simp [kill, procKill, hp, hr]
      | some r => simp [kill, procKill, hp, hr]

/-- Witness for C8 at a concrete state: a supervisor whose process has
already exited naturally with status 0. -/
theorem claim8_kill_idempotent_witness :
    (kill (kill { initState theUrl none with
                  process := some ⟨some 0, false⟩, rc := some 0 }).1).1 =
      (kill { initState theUrl none with
              process := some ⟨some 0, false⟩, rc := some 0 }).1 ∧
    (kill { initState theUrl none with
            process := some ⟨some 0, false⟩, rc := some 0 }).1.rc = some 0 :=
  ⟨(claim8_kill_idempotent _).1,
   (claim8_kill_idempotent { initState theUrl none with
      process := some ⟨some 0, false⟩, rc := some 0 }).2.1⟩

/-- C4, counterexample.  The claim asserts that when spawning fails the
supervisor transitions to Completed with a synthetic non-zero status and
notifies listeners of completion, with `is_complete()` eventually true.
The code refutes it: there is no handler around `Popen`, so the exception
escapes the thread body at once — the run below raises with the state
unchanged and an empty callback list (the registered listener is never
told anything), and `is_complete` stays `false`. -/
theorem claim4_spawn_failure_counterexample :
    runDownloadFunc (.error ()) [c1SpecLine] oneListener =
      .exn oneListener [] ∧
    is_complete oneListener = false ∧ oneListener.listeners = [0] := by
  refine ⟨rfl, rfl, rfl⟩

/-- C4, amended.  When the `Popen` call raises, `_download_func` performs
nothing further: the exception escapes the pump thread, no listener
callback is delivered, the shared state is unchanged, and a supervisor
with no captured status still reports `is_complete() = false` — it is
left hung rather than transitioned to a synthetic completion. -/
theorem claim4_spawn_failure_amended (s : SupState)
    (lines : List (List Char)) :
    runDownloadFunc (.error ()) lines s = .exn s [] ∧
    (s.rc = none → is_complete s = false) := by
  refine ⟨rfl, fun h => by simp [is_complete, h]⟩

/-- Witness for C4's amended statement at a concrete input. -/
theorem claim4_spawn_failure_amended_witness :
    runDownloadFunc (.error ()) [] (initState theUrl none) =
      .exn (initState theUrl none) [] ∧
    is_complete (initState theUrl none) = false :=
  ⟨(claim4_spawn_failure_amended (initState theUrl none) []).1,
   (claim4_spawn_failure_amended (initState theUrl none) []).2 rfl⟩

/-- C5.  After the pump loop ends the record is finalized: `completed`
becomes true and rate and ETA are zeroed in every case, and progress is
forced to `100.0` exactly when the captured status is `0`; for a non-zero
or absent status it keeps its last observed value.  The last conjunct ties
the finalization to its place in the run: whenever the loop returns, the
run's result is the loop's state finalized with the polled status, with
the final notification round performed before the thread slot is
cleared. -/
theorem claim5_finalization (rc : Option Int) (info : YtDlpInfo) :
    (finalizeInfo rc info).completed = true ∧
    (finalizeInfo rc info).rate_bytes_per_sec = 0 ∧
    (finalizeInfo rc info).eta_seconds = .vInt 0 ∧
    (finalizeInfo rc info).progress =
      (if rc = some 0 then 100 else info.progress) ∧
    (rc ≠ some 0 → (finalizeInfo rc info).progress = info.progress) ∧
    (∀ (proc : ProcHandle) (lines : List (List Char)) (s : SupState)
        (sL : SupState) (evsL : List Event),
      pumpLoop s.url lines { s with process := some proc } [] = .ok sL evsL →
      runDownloadFunc (.ok proc) lines s =
        .ok { sL with
                rc := proc.returncode
                ytdlp_info := finalizeInfo proc.returncode sL.ytdlp_info
                download_thread := none }
            (evsL ++ notify_listeners { sL with
                rc := proc.returncode
                ytdlp_info := finalizeInfo proc.returncode sL.ytdlp_info })) := by
  by_cases h0 : rc = some 0
  all_goals
    refine ⟨by simp [finalizeInfo, h0], by simp [finalizeInfo, h0],
      by simp [finalizeInfo, h0], by simp [finalizeInfo, h0],
      fun hne => by simp [finalizeInfo, h0] at *,
      fun proc lines s sL evsL h => by simp [runDownloadFunc, h]⟩

/-- Witness for C5 at concrete inputs: a failed status keeps the last
observed progress, and a run with no output lines finalizes the initial
record. -/
theorem claim5_finalization_witness :
    (finalizeInfo (some 1) (YtDlpInfo.new theUrl)).progress =
      (YtDlpInfo.new theUrl).progress ∧
    runDownloadFunc (.ok ⟨some 0, false⟩) [] (initState theUrl none) =
      .ok { { initState theUrl none with process := some ⟨some 0, false⟩ } with
              rc := some 0
              ytdlp_info := finalizeInfo (some 0)
                ({ initState theUrl none with
                   process := some ⟨some 0, false⟩ }).ytdlp_info
              download_thread := none }
          ([] ++ notify_listeners
            { { initState theUrl none with process := some ⟨some 0, false⟩ } with
                rc := some 0
                ytdlp_info := finalizeInfo (some 0)
                  ({ initState theUrl none with
                     process := some ⟨some 0, false⟩ }).ytdlp_info }) :=
  ⟨(claim5_finalization (some 1) (YtDlpInfo.new theUrl)).2.2.2.2.1
     (by simp),
   (claim5_finalization (some 0) (YtDlpInfo.new theUrl)).2.2.2.2.2
     ⟨some 0, false⟩ [] (initState theUrl none) _ _ rfl⟩

/-- C6, counterexample.  The claim asserts the pump loop delivers no
status-update notification for a line that does not match the progress
shape.  The code refutes it: `parse_output` leaves the record unchanged on
no-match, but the loop's guard compares `self.ytdlp_info` against `None`
(it never is), so `notify_listeners` runs for every line read.  Pumping
one log line to a one-listener supervisor delivers three callbacks, the
first being a `status_update` with the unchanged initial record, emitted
for that very line. -/
theorem claim6_nomatch_still_notifies :
    runDownloadFunc (.ok ⟨some 0, false⟩) [c6LogLine] oneListener =
      .ok { oneListener with
              process := some ⟨some 0, false⟩
              rc := some 0
              ytdlp_info := { url := theUrl, progress := 100,
                              rate_bytes_per_sec := 0, size_bytes := 0,
                              eta_seconds := .vInt 0, completed := true } }
          [Event.statusUpdate 0 (YtDlpInfo.new theUrl),
           Event.statusUpdate 0
             { url := theUrl, progress := 100, rate_bytes_per_sec := 0,
               size_bytes := 0, eta_seconds := .vInt 0, completed := true },
           Event.completedEv 0 (some 0)] := by
  with_unfolding_all rfl

/-- C6, amended.  On a line that does not match the progress shape,
`parse_output` leaves the held record completely unchanged (all-or-nothing
holds), but the pump loop nevertheless invokes every registered listener's
`status_update` with that unchanged record before continuing: the loop
over the remaining lines proceeds from the same state with
`notify_listeners` appended for the unmatched line. -/
theorem claim6_nomatch_amended (s : SupState) (line : List Char)
    (lines : List (List Char)) (evs : List Event)
    (hc : s.cancelled = false)
    (hm : reSearch progressRE (pyStrip line) = none) :
    parse_output s.url s.ytdlp_info (pyStrip line) = .ok s.ytdlp_info ∧
    pumpLoop s.url (line :: lines) s evs =
      pumpLoop s.url lines s (evs ++ notify_listeners s) := by
  constructor
  · simp [parse_output, hm]
  · cases s with
    | mk url process cancelled download_thread output_folder rc info fmts ls =>
        subst hc
        simp [pumpLoop, parse_output, hm]

/-- Witness for C6's amended statement at a concrete input. -/
theorem claim6_nomatch_amended_witness :
    parse_output oneListener.url oneListener.ytdlp_info (pyStrip c6LogLine) =
      .ok oneListener.ytdlp_info ∧
    pumpLoop oneListener.url [c6LogLine] oneListener [] =
      pumpLoop oneListener.url [] oneListener
        ([] ++ notify_listeners oneListener) :=
  claim6_nomatch_amended oneListener c6LogLine [] [] rfl (by decide)

/-- C7, counterexample.  The claim asserts the completion event is
delivered to the downstream signal exactly once in *every* interleaving of
producer calls with the consumer loop.  The code refutes it: in the
interleaving below the producer performs `status_update` and then
`completed` before the consumer loop first tests `self.cancelled`; the
consumer then observes `cancelled == True`, leaves the loop at once, and
exits with nothing emitted — the completion event is dropped.  The run is
complete (no producer call pending, consumer exited) and its emission list
is empty. -/
theorem claim7_completion_drop :
    qRun [QAct.prod, QAct.prod, QAct.cons]
        (qInit [POp.statusOp c7Info, POp.completedOp (some 0)]) =
      some { qinfo := some c7Info, qrc := some 0, cancelled := true,
             lockFree := true, notified := false, cloc := .exited,
             pending := [], emitted := [] } := by
  with_unfolding_all rfl

/-- C7, amended.  What does hold of the dispatcher: (1) a `status_update`
from the producer never overwrites or clears a pending completion — it
leaves `self.rc` and `self.cancelled` untouched; (2) once the consumer
loop has exited, no step changes the emission list, so nothing further is
delivered after shutdown; (3) in an interleaving where the consumer is
already blocked in `wait()` when the completion arrives, the completion
event is delivered to the downstream signal exactly once and the loop then
terminates.  Exactly-once delivery holds only for such interleavings, not
for all (see the counterexample). -/
theorem claim7_dispatcher_amended :
    (∀ (s : QState) (i : YtDlpInfo) (rest : List POp) (s1 : QState),
      s.pending = POp.statusOp i :: rest → qstep s .prod = some s1 →
      s1.qrc = s.qrc ∧ s1.cancelled = s.cancelled) ∧
    (∀ (s : QState) (a : QAct) (s1 : QState),
      s.cloc = .exited → qstep s a = some s1 →
      s1.emitted = s.emitted ∧ s1.cloc = .exited) ∧
    (qRun [QAct.cons, QAct.cons, QAct.cons, QAct.prod, QAct.prod,
           QAct.cons, QAct.cons, QAct.cons]
        (qInit [POp.statusOp c7Info, POp.completedOp (some 0)]) =
      some { qinfo := none, qrc := none, cancelled := true, lockFree := true,
             notified := false, cloc := .exited, pending := [],
             emitted := [QEvent.emitCompleted 0, QEvent.emitStatus c7Info] } ∧
     completedCount [QEvent.emitCompleted 0, QEvent.emitStatus c7Info] = 1) := by
  refine ⟨?_, ?_, by with_unfolding_all rfl, by decide⟩
  · intro s i rest s1 hp hstep
    unfold qstep at hstep
    rw [hp] at hstep
    by_cases hl : s.lockFree
    · simp [hl] at hstep
      subst hstep
      exact ⟨rfl, rfl⟩
    · simp [hl] at hstep
  · intro s a s1 hx hstep
    cases a with
    | cons =>
        unfold qstep at hstep
        rw [hx] at hstep
        cases hstep
    | prod =>
        unfold qstep at hstep
        cases hp : s.pending with
        | nil => rw [hp] at hstep; cases hstep
        | cons op rest =>
            rw [hp] at hstep
            by_cases hl : s.lockFree
            · cases op with
              | statusOp i =>
                  simp [hl] at hstep
                  subst hstep
                  exact ⟨rfl, hx⟩
              | completedOp r =>
                  simp [hl] at hstep
                  subst hstep
                  exact ⟨rfl, hx⟩
            · simp [hl] at hstep

/-- Witness for C7's amended statement at concrete inputs: a producer
status update with a pending completion already stored leaves it in place,
and a producer step after consumer exit leaves the emissions alone. -/
theorem claim7_dispatcher_amended_witness :
    (({ qInit [POp.statusOp c7Info] with
        qinfo := some c7Info, pending := [] } : QState).qrc =
      ({ qInit [POp.statusOp c7Info] with qrc := none } : QState).qrc ∧
     ({ qInit [POp.statusOp c7Info] with
        qinfo := some c7Info, pending := [] } : QState).cancelled =
      (qInit [POp.statusOp c7Info]).cancelled) ∧
    (({ qInit [POp.statusOp c7Info] with
        cloc := .exited, qinfo := some c7Info, pending := [] } : QState).emitted =
      ({ qInit [POp.statusOp c7Info] with cloc := .exited } : QState).emitted ∧
     ({ qInit [POp.statusOp c7Info] with
        cloc := .exited, qinfo := some c7Info, pending := [] } : QState).cloc =
      CLoc.exited) :=
  ⟨claim7_dispatcher_amended.1 (qInit [POp.statusOp c7Info]) c7Info [] _
     rfl (by with_unfolding_all rfl),
   claim7_dispatcher_amended.2.1
     { qInit [POp.statusOp c7Info] with cloc := .exited } .prod _
     rfl (by with_unfolding_all rfl)⟩

/-! ## Shared lemmas about the pump loop and the parsers -/

theorem except_bind_ok {α β : Type} {e : Except Unit α}
    {f : α → Except Unit β} {b : β} (h : (e >>= f) = .ok b) :
    ∃ a, e = .ok a ∧ f a = .ok b := by
  cases e with
  | error e => simp [Bind.bind, Except.bind] at h
  | ok a => exact ⟨a, rfl, by simpa [Bind.bind, Except.bind] using h⟩

theorem parse_output_ok_completed {url out : List Char}
    {info i' : YtDlpInfo} (h : parse_output url info out = .ok i')
    (hc : info.completed = false) : i'.completed = false := by
  unfold parse_output at h
  cases hm : reSearch progressRE out with
  | none =>
      rw [hm] at h
      injection h with h
      rw [← h]
      exact hc
  | some cp =>
      rw [hm] at h
      obtain ⟨g1, -, h⟩ := except_bind_ok h
      obtain ⟨g2, -, h⟩ := except_bind_ok h
      obtain ⟨g3, -, h⟩ := except_bind_ok h
      obtain ⟨g4, -, h⟩ := except_bind_ok h
      obtain ⟨p, -, h⟩ := except_bind_ok h
      obtain ⟨sz, -, h⟩ := except_bind_ok h
      obtain ⟨rt, -, h⟩ := except_bind_ok h
      obtain ⟨eta, -, h⟩ := except_bind_ok h
      injection h with h
      rw [← h]

theorem flatMap_single {α β : Type} (f : α → β) (l : List α) :
    l.flatMap (fun a => [f a]) = l.map f := by
  induction l with
  | nil => rfl
  | cons x xs ih => simp [ih]

theorem notify_not_completed (s : SupState)
    (h : s.ytdlp_info.completed = false) :
    notify_listeners s =
      s.listeners.map (fun l => Event.statusUpdate l s.ytdlp_info) := by
  unfold notify_listeners
  rw [h]
  simp only [Bool.false_eq_true, if_false]
  exact flatMap_single _ _

theorem notify_completed (s : SupState)
    (h : s.ytdlp_info.completed = true) :
    notify_listeners s = s.listeners.flatMap (fun l =>
      [Event.statusUpdate l s.ytdlp_info, Event.completedEv l s.rc]) := by
  unfold notify_listeners
  rw [h]
  simp

/-- Invariant of the read/parse/notify loop: starting from a record not
yet marked completed, the loop keeps it not completed, does not touch the
listener list, and every callback it appends is a `status_update` — never
a `completed`. -/
theorem pumpLoop_inv (url : List Char) (lines : List (List Char)) :
    ∀ (s : SupState) (evs : List Event) (sL : SupState) (evsL : List Event),
      pumpLoop url lines s evs = .ok sL evsL →
      s.ytdlp_info.completed = false →
      sL.ytdlp_info.completed = false ∧ sL.listeners = s.listeners ∧
      ∃ extra, evsL = evs ++ extra ∧
        ∀ l rcv, Event.completedEv l rcv ∉ extra := by
  induction lines with
  | nil =>
      intro s evs sL evsL h hc
      unfold pumpLoop at h
      injection h with h1 h2
      subst h1; subst h2
      exact ⟨hc, rfl, [], by simp, by simp⟩
  | cons line rest ih =>
      intro s evs sL evsL h hc
      unfold pumpLoop at h
      split at h
      · injection h with h1 h2
        subst h1; subst h2
        exact ⟨hc, rfl, [], by simp, by simp⟩
      · split at h
        · exact (PumpOut.noConfusion h)
        · rename_i info heq
          have hc1 : ({ s with ytdlp_info := info } :
              SupState).ytdlp_info.completed = false :=
            parse_output_ok_completed heq hc
          obtain ⟨hcL, hlsL, extra, hevs, hnc⟩ :=
            ih { s with ytdlp_info := info } _ sL evsL h hc1
          refine ⟨hcL, hlsL, notify_listeners { s with ytdlp_info := info }
            ++ extra, ?_, ?_⟩
          · rw [hevs, List.append_assoc]
          · intro l rcv hmem
            rw [List.mem_append] at hmem
            rcases hmem with hm | hm
            · rw [notify_not_completed _ hc1] at hm
              simp [List.mem_map] at hm
            · exact hnc l rcv hm

/-- The three always-set fields of the finalized record. -/
theorem finalizeInfo_fields (rc : Option Int) (info : YtDlpInfo) :
    (finalizeInfo rc info).completed = true ∧
    (finalizeInfo rc info).rate_bytes_per_sec = 0 ∧
    (finalizeInfo rc info).eta_seconds = .vInt 0 := by
  by_cases h0 : rc = some 0 <;> simp [finalizeInfo, h0]

/-- C10.  In the final notification round after the pump loop ends, every
registered listener first receives a `status_update` whose record is the
finalized one — `completed = true`, rate and ETA zeroed — and then its
`completed` call with the captured exit status; the rounds performed
during the loop (whose records are never marked completed) contain no
`completed` callback. -/
theorem claim10_final_round (url : List Char) (ls : List Nat)
    (lines : List (List Char)) (r : Int) (s1 : SupState)
    (evs : List Event)
    (h : runDownloadFunc (.ok ⟨some r, false⟩) lines
          { initState url none with listeners := ls } = .ok s1 evs) :
    ∃ evsL, evs = evsL ++ ls.flatMap (fun l =>
        [Event.statusUpdate l s1.ytdlp_info,
         Event.completedEv l (some r)]) ∧
      (∀ l rcv, Event.completedEv l rcv ∉ evsL) ∧
      s1.ytdlp_info.completed = true ∧
      s1.ytdlp_info.rate_bytes_per_sec = 0 ∧
      s1.ytdlp_info.eta_seconds = .vInt 0 := by
  unfold runDownloadFunc at h
  split at h
  · rename_i hsp
    exact (Except.noConfusion hsp)
  · rename_i proc hsp
    injection hsp with hsp
    subst hsp
    split at h
    · exact (PumpOut.noConfusion h)
    · rename_i sL evsL hp
      injection h with h1 h2
      subst h1
      subst h2
      obtain ⟨hcL, hlsL, extra, hevs, hnc⟩ :=
        pumpLoop_inv _ lines _ [] sL evsL hp rfl
      have hls : sL.listeners = ls := hlsL
      have hfin := finalizeInfo_fields (some r) sL.ytdlp_info
      refine ⟨evsL, ?_, ?_, hfin.1, hfin.2.1, hfin.2.2⟩
      · show evsL ++ notify_listeners
            { sL with
              rc := some r
              ytdlp_info := finalizeInfo (some r) sL.ytdlp_info } =
          evsL ++ ls.flatMap (fun l =>
            [Event.statusUpdate l (finalizeInfo (some r) sL.ytdlp_info),
             Event.completedEv l (some r)])
        rw [notify_completed _ hfin.1]
        dsimp only
        rw [hls]
      · intro l rcv hmem
        rw [hevs] at hmem
        simp only [List.nil_append] at hmem
        exact hnc l rcv hmem

/-! ## Shared lemmas for the unit-conversion law -/

theorem digit_ne_dot {c : Char} (h : pyIsDigit c = true) : c ≠ '.' := by
  intro he
  subst he
  exact absurd h (by decide)

theorem digit_ne_i {c : Char} (h : pyIsDigit c = true) : c ≠ 'i' := by
  intro he
  subst he
  exact absurd h (by decide)

theorem pySplitChAux_no_sep (c : Char) (l : List Char) :
    ∀ acc : List Char, (∀ x ∈ l, x ≠ c) →
      pySplitChAux c l acc = [acc.reverse ++ l] := by
  induction l with
  | nil => intro acc h; simp [pySplitChAux]
  | cons x xs ih =>
      intro acc h
      have hx : ¬ x = c := h x (by simp)
      simp only [pySplitChAux, if_neg hx]
      rw [ih (x :: acc) (fun y hy => h y (by simp [hy]))]
      simp

theorem pySplitChAux_mid (c : Char) (d1 : List Char) (d2 : List Char) :
    ∀ acc : List Char, (∀ x ∈ d1, x ≠ c) →
      pySplitChAux c (d1 ++ c :: d2) acc =
        (acc.reverse ++ d1) :: pySplitChAux c d2 [] := by
  induction d1 with
  | nil => intro acc h; simp [pySplitChAux]
  | cons x xs ih =>
      intro acc h
      have hx : ¬ x = c := h x (by simp)
      simp only [List.cons_append, pySplitChAux, if_neg hx, List.append_eq]
      rw [ih (x :: acc) (fun y hy => h y (by simp [hy]))]
      simp

theorem pySplitCh_decimal (d1 d2 : List Char)
    (h1 : ∀ x ∈ d1, x ≠ '.') (h2 : ∀ x ∈ d2, x ≠ '.') :
    pySplitCh '.' (d1 ++ '.' :: d2) = [d1, d2] := by
  unfold pySplitCh
  rw [pySplitChAux_mid '.' d1 d2 [] h1]
  rw [pySplitChAux_no_sep '.' d2 [] h2]
  simp

theorem pyFloatDec_decimal (d1 d2 : List Char) (h1 : d1 ≠ []) (h2 : d2 ≠ [])
    (ha : d1.all pyIsDigit = true) (hb : d2.all pyIsDigit = true) :
    pyFloatDec (d1 ++ '.' :: d2) = some (decQ d1 d2) := by
  have ha1 : ∀ x ∈ d1, x ≠ '.' :=
    fun x hx => digit_ne_dot (List.all_eq_true.mp ha x hx)
  have hb1 : ∀ x ∈ d2, x ≠ '.' :=
    fun x hx => digit_ne_dot (List.all_eq_true.mp hb x hx)
  unfold pyFloatDec
  rw [pySplitCh_decimal d1 d2 ha1 hb1]
  have he1 : d1.isEmpty = false := List.isEmpty_eq_false.mpr h1
  have he2 : d2.isEmpty = false := List.isEmpty_eq_false.mpr h2
  simp [he1, he2, ha, hb, decQ]

theorem isSuffixOf_append_self (u v : List Char) :
    u.isSuffixOf (v ++ u) = true := by
  rw [List.isSuffixOf_iff_suffix]
  exact List.suffix_append v u

theorem isSuffixOf_ne_eq_length (u w v : List Char)
    (h : u.length = w.length) (hne : u ≠ w) :
    u.isSuffixOf (v ++ w) = false := by
  rw [← Bool.not_eq_true]
  intro hb
  rw [List.isSuffixOf_iff_suffix] at hb
  obtain ⟨t, ht⟩ := hb
  have hlen : t.length = v.length := by
    have hl := congrArg List.length ht
    simp only [List.length_append] at hl
    omega
  obtain ⟨-, h2⟩ := List.append_inj ht hlen
  exact hne h2

theorem not_iB_suffix (a : Char) (p : List Char)
    (hp : ∀ x, p.getLast? = some x → x ≠ 'i') :
    [a, 'i', 'B'].isSuffixOf (p ++ ['B']) = false := by
  rw [← Bool.not_eq_true]
  intro hb
  rw [List.isSuffixOf_iff_suffix] at hb
  obtain ⟨t, ht⟩ := hb
  have ht2 : (t ++ [a, 'i']) ++ ['B'] = p ++ ['B'] := by
    rw [List.append_assoc]
    exact ht
  have hp2 : t ++ [a, 'i'] = p := List.append_cancel_right ht2
  have hl : p.getLast? = some 'i' := by
    rw [← hp2, show t ++ [a, 'i'] = (t ++ [a]) ++ ['i'] by simp,
      List.getLast?_concat]
  exact hp 'i' hl rfl

theorem decimal_getLast_digit (d1 d2 : List Char) (h2 : d2 ≠ [])
    (hb : d2.all pyIsDigit = true) :
    ∀ x, (d1 ++ '.' :: d2).getLast? = some x → x ≠ 'i' := by
  intro x hx
  rw [List.getLast?_append_of_ne_nil d1 (List.cons_ne_nil '.' d2)] at hx
  rw [show ('.' :: d2) = ['.'] ++ d2 by rfl,
    List.getLast?_append_of_ne_nil ['.'] h2] at hx
  have hmem : x ∈ d2 := by
    obtain ⟨hne, hval⟩ := List.mem_getLast?_eq_getLast (by
      rw [Option.mem_def]; exact hx)
    rw [hval]
    exact List.getLast_mem hne
  exact digit_ne_i (List.all_eq_true.mp hb x hmem)

theorem pyDropRight_append (p u : List Char) :
    pyDropRight u.length (p ++ u) = p := by
  unfold pyDropRight
  rw [List.length_append, Nat.add_sub_cancel, List.take_left]

/-- C9.  `parse_byte_size` converts a decimal number suffixed by `GiB`,
`MiB`, `KiB` or `B` to `value × 1024^k` bytes with `k = 3, 2, 1, 0`
respectively, truncated toward zero (`pyTrunc`): first the three concrete
conversions the specification lists, then the law for every decimal string
`d1 ++ "." ++ d2` and each unit suffix. -/
theorem claim9_parse_byte_size :
    parse_byte_size "1.00GiB".toList = .ok 1073741824 ∧
    parse_byte_size "512.00KiB".toList = .ok 524288 ∧
    parse_byte_size "1.00B".toList = .ok 1 ∧
    (∀ d1 d2 : List Char, d1 ≠ [] → d2 ≠ [] →
      d1.all pyIsDigit = true → d2.all pyIsDigit = true →
      parse_byte_size (d1 ++ '.' :: d2 ++ "GiB".toList) =
        .ok (pyTrunc (decQ d1 d2 * 1024 ^ 3)) ∧
      parse_byte_size (d1 ++ '.' :: d2 ++ "MiB".toList) =
        .ok (pyTrunc (decQ d1 d2 * 1024 ^ 2)) ∧
      parse_byte_size (d1 ++ '.' :: d2 ++ "KiB".toList) =
        .ok (pyTrunc (decQ d1 d2 * 1024 ^ 1)) ∧
      parse_byte_size (d1 ++ '.' :: d2 ++ "B".toList) =
        .ok (pyTrunc (decQ d1 d2 * 1024 ^ 0))) := by
  refine ⟨by with_unfolding_all rfl, by with_unfolding_all rfl,
    by with_unfolding_all rfl, ?_⟩
  intro d1 d2 h1 h2 ha hb
  have hfd : pyFloatDec (d1 ++ '.' :: d2) = some (decQ d1 d2) :=
    pyFloatDec_decimal d1 d2 h1 h2 ha hb
  have hlast : ∀ x, (d1 ++ '.' :: d2).getLast? = some x → x ≠ 'i' :=
    decimal_getLast_digit d1 d2 h2 hb
  have hshape : ∀ u : List Char,
      d1 ++ '.' :: d2 ++ u = (d1 ++ '.' :: d2) ++ u := by
    intro u
    simp
  have gib : "GiB".toList = ['G', 'i', 'B'] := rfl
  have mib : "MiB".toList = ['M', 'i', 'B'] := rfl
  have kib : "KiB".toList = ['K', 'i', 'B'] := rfl
  have bl : "B".toList = ['B'] := rfl
  refine ⟨?_, ?_, ?_, ?_⟩
  · rw [hshape]
    have hcg : "GiB".toList.isSuffixOf ((d1 ++ '.' :: d2) ++ "GiB".toList)
        = true := isSuffixOf_append_self _ _
    have hdr : pyDropRight 3 ((d1 ++ '.' :: d2) ++ "GiB".toList)
        = d1 ++ '.' :: d2 := by
      rw [gib]
      exact pyDropRight_append (d1 ++ '.' :: d2) ['G', 'i', 'B']
    simp only [parse_byte_size, hcg, hdr, hfd, eq_self_iff_true, if_true,
      exceptOfOpt, Bind.bind, Except.bind]
  · rw [hshape]
    have hcg : "GiB".toList.isSuffixOf ((d1 ++ '.' :: d2) ++ "MiB".toList)
        = false :=
      isSuffixOf_ne_eq_length _ _ _ (by decide) (by decide)
    have hcm : "MiB".toList.isSuffixOf ((d1 ++ '.' :: d2) ++ "MiB".toList)
        = true := isSuffixOf_append_self _ _
    have hdr : pyDropRight 3 ((d1 ++ '.' :: d2) ++ "MiB".toList)
        = d1 ++ '.' :: d2 := by
      rw [mib]
      exact pyDropRight_append (d1 ++ '.' :: d2) ['M', 'i', 'B']
    simp only [parse_byte_size, hcg, hcm, hdr, hfd, eq_self_iff_true, if_true,
      Bool.false_eq_true, if_false, exceptOfOpt, Bind.bind, Except.bind]
  · rw [hshape]
    have hcg : "GiB".toList.isSuffixOf ((d1 ++ '.' :: d2) ++ "KiB".toList)
        = false :=
      isSuffixOf_ne_eq_length _ _ _ (by decide) (by decide)
    have hcm : "MiB".toList.isSuffixOf ((d1 ++ '.' :: d2) ++ "KiB".toList)
        = false :=
      isSuffixOf_ne_eq_length _ _ _ (by decide) (by decide)
    have hck : "KiB".toList.isSuffixOf ((d1 ++ '.' :: d2) ++ "KiB".toList)
        = true := isSuffixOf_append_self _ _
    have hdr : pyDropRight 3 ((d1 ++ '.' :: d2) ++ "KiB".toList)
        = d1 ++ '.' :: d2 := by
      rw [kib]
      exact pyDropRight_append (d1 ++ '.' :: d2) ['K', 'i', 'B']
    simp only [parse_byte_size, hcg, hcm, hck, hdr, hfd, eq_self_iff_true,
      if_true, Bool.false_eq_true, if_false, exceptOfOpt, Bind.bind,
      Except.bind]
  · rw [hshape]
    have hcg : "GiB".toList.isSuffixOf ((d1 ++ '.' :: d2) ++ "B".toList)
        = false := by
      rw [gib, bl]
      exact not_iB_suffix 'G' _ hlast
    have hcm : "MiB".toList.isSuffixOf ((d1 ++ '.' :: d2) ++ "B".toList)
        = false := by
      rw [mib, bl]
      exact not_iB_suffix 'M' _ hlast
    have hck : "KiB".toList.isSuffixOf ((d1 ++ '.' :: d2) ++ "B".toList)
        = false := by
      rw [kib, bl]
      exact not_iB_suffix 'K' _ hlast
    have hcb : "B".toList.isSuffixOf ((d1 ++ '.' :: d2) ++ "B".toList)
        = true := isSuffixOf_append_self _ _
    have hdr : pyDropRight 1 ((d1 ++ '.' :: d2) ++ "B".toList)
        = d1 ++ '.' :: d2 := by
      rw [bl]
      exact pyDropRight_append (d1 ++ '.' :: d2) ['B']
    simp only [parse_byte_size, hcg, hcm, hck, hcb, hdr, hfd,
      eq_self_iff_true, if_true, Bool.false_eq_true, if_false, exceptOfOpt,
      Bind.bind, Except.bind]

/-- Witness for C9's general law at `d1 = "1"`, `d2 = "00"`: the general
conversion instantiates to the specification's own GiB example. -/
theorem claim9_parse_byte_size_witness :
    parse_byte_size (['1'] ++ '.' :: ['0', '0'] ++ "GiB".toList) =
      .ok (pyTrunc (decQ ['1'] ['0', '0'] * 1024 ^ 3)) ∧
    pyTrunc (decQ ['1'] ['0', '0'] * 1024 ^ 3) = 1073741824 :=
  ⟨((claim9_parse_byte_size.2.2.2 ['1'] ['0', '0'] (by decide) (by decide)
      (by decide) (by decide)).1),
   by with_unfolding_all rfl⟩

/-- Witness for C10 at a concrete input: one listener, no output lines,
exit status 0. -/
theorem claim10_final_round_witness :
    ∃ evsL, [Event.statusUpdate 0
        { url := theUrl, progress := 100, rate_bytes_per_sec := 0,
          size_bytes := 0, eta_seconds := .vInt 0, completed := true },
      Event.completedEv 0 (some 0)] =
      evsL ++ [0].flatMap (fun l =>
        [Event.statusUpdate l ({ { initState theUrl none with
              listeners := [0], process := some ⟨some 0, false⟩ } with
            rc := some 0
            ytdlp_info := finalizeInfo (some 0) (YtDlpInfo.new theUrl)
            download_thread := none } : SupState).ytdlp_info,
         Event.completedEv l (some 0)]) ∧
      (∀ l rcv, Event.completedEv l rcv ∉ evsL) ∧
      ({ { initState theUrl none with
           listeners := [0], process := some ⟨some 0, false⟩ } with
         rc := some 0
         ytdlp_info := finalizeInfo (some 0) (YtDlpInfo.new theUrl)
         download_thread := none } : SupState).ytdlp_info.completed = true ∧
      ({ { initState theUrl none with
           listeners := [0], process := some ⟨some 0, false⟩ } with
         rc := some 0
         ytdlp_info := finalizeInfo (some 0) (YtDlpInfo.new theUrl)
         download_thread := none } : SupState).ytdlp_info.rate_bytes_per_sec
        = 0 ∧
      ({ { initState theUrl none with
           listeners := [0], process := some ⟨some 0, false⟩ } with
         rc := some 0
         ytdlp_info := finalizeInfo (some 0) (YtDlpInfo.new theUrl)
         download_thread := none } : SupState).ytdlp_info.eta_seconds
        = .vInt 0 :=
  claim10_final_round theUrl [0] [] 0 _ _ (by with_unfolding_all rfl)

end YtdlUi
